import Mathlib

/-!
Verification development for the F1 analytics repository
(src/streamlit_app.py and src/importador.py).

The data model is a shallow embedding of the rows the dashboard works on:
an Entry is one row of the results table joined with its race (the
DataFrame called results_full in the code), a QualEntry is one row of the
qualifying table, a Driver is one row of tbl_pilotos as handled by the
CRUD page, and a LinhaImport is one row processed by the bulk importer.
Each definition follows the corresponding pandas/SQL computation in the
source; deviations are noted in the doc comments.
-/

/-- One row of results_full: a result row merged with its race
(year, round) as built in carregar_todos_os_dados.  position is nullable
(NaN for a DNF, per the importer and pd.to_numeric coercion); points is
rational (fractional points occur historically). -/
structure Entry where
  raceId : Nat
  driverId : Nat
  constructorId : Nat
  year : Nat
  round : Nat
  points : Rat
  position : Option Nat
  grid : Nat
  deriving Repr, DecidableEq

/-- One row of the qualifying table; position 1 is pole. -/
structure QualEntry where
  raceId : Nat
  driverId : Nat
  constructorId : Nat
  position : Option Nat
  deriving Repr, DecidableEq

/-- Insert into an ascending list, used to mirror the sorted group keys
that pandas groupby produces. -/
def insertAsc (a : Nat) : List Nat → List Nat
  | [] => [a]
  | b :: l => if a ≤ b then a :: b :: l else b :: insertAsc a l

/-- Ascending insertion sort on group keys. -/
def sortAsc : List Nat → List Nat
  | [] => []
  | a :: l => insertAsc a (sortAsc l)

/-- Sum of a competitor's points over all entries of one season, as in
results_full.groupby([year, key])[points].sum() (streamlit_app lines
406 and 898): key is the driver or the constructor id. -/
def sumBy (key : Entry → Nat) (entries : List Entry) (y k : Nat) : Rat :=
  ((entries.filter (fun e => decide (e.year = y ∧ key e = k))).map (fun e => e.points)).sum

/-- Remove duplicates keeping the first occurrence of each key. -/
def dedupKeys : List Nat → List Nat
  | [] => []
  | a :: t => a :: (dedupKeys t).filter (fun b => decide (b ≠ a))

/-- The distinct competitor ids of one season in ascending order: the
group keys of the pandas groupby. -/
def idsBy (key : Entry → Nat) (entries : List Entry) (y : Nat) : List Nat :=
  dedupKeys (sortAsc ((entries.filter (fun e => decide (e.year = y))).map key))

/-- First maximiser of f in the list, mirroring pandas idxmax which
returns the first index attaining the maximum. -/
def argmaxFirst (f : Nat → Rat) : List Nat → Option Nat
  | [] => none
  | x :: xs => some (xs.foldl (fun b c => if f b < f c then c else b) x)

/-- Season champion as computed in render_hall_da_fama (lines 898-905)
and render_analise_pilotos (lines 406-408): the first row attaining the
maximal season point sum, per idxmax over the grouped sums. -/
def championBy (key : Entry → Nat) (entries : List Entry) (y : Nat) : Option Nat :=
  argmaxFirst (sumBy key entries y) (idsBy key entries y)

/-- Driver champion of a season (groupby year, driverId). -/
def championDrivers (entries : List Entry) (y : Nat) : Option Nat :=
  championBy (fun e => e.driverId) entries y

/-- Constructor champion of a season (groupby year, constructorId). -/
def championConstructors (entries : List Entry) (y : Nat) : Option Nat :=
  championBy (fun e => e.constructorId) entries y

theorem mem_insertAsc {x a : Nat} {l : List Nat} :
    x ∈ insertAsc a l ↔ x = a ∨ x ∈ l := by
  induction l with
  | nil => simp [insertAsc]
  | cons b t ih =>
      by_cases h : a ≤ b
      · simp [insertAsc, h, List.mem_cons]
      · simp [insertAsc, h, List.mem_cons, ih]
        tauto

theorem mem_sortAsc {x : Nat} {l : List Nat} : x ∈ sortAsc l ↔ x ∈ l := by
  induction l with
  | nil => simp [sortAsc]
  | cons b t ih => simp [sortAsc, mem_insertAsc, ih, List.mem_cons]

theorem mem_dedupKeys {x : Nat} {l : List Nat} : x ∈ dedupKeys l ↔ x ∈ l := by
  induction l with
  | nil => simp [dedupKeys]
  | cons a t ih =>
      simp only [dedupKeys, List.mem_cons, List.mem_filter, ih, decide_eq_true_eq]
      by_cases h : x = a
      · simp [h]
      · simp [h]

theorem argmaxFirst_foldl_spec (f : Nat → Rat) :
    ∀ (xs : List Nat) (x : Nat),
      (xs.foldl (fun b c => if f b < f c then c else b) x) ∈ x :: xs ∧
      f x ≤ f (xs.foldl (fun b c => if f b < f c then c else b) x) ∧
      ∀ y ∈ xs, f y ≤ f (xs.foldl (fun b c => if f b < f c then c else b) x) := by
  intro xs
  induction xs with
  | nil => intro x; exact ⟨List.mem_singleton.mpr rfl, le_refl _, by simp⟩
  | cons c t ih =>
      intro x
      by_cases hc : f x < f c
      · have step : List.foldl (fun b c => if f b < f c then c else b) x (c :: t)
            = List.foldl (fun b c => if f b < f c then c else b) c t := by
          simp [List.foldl_cons, hc]
        obtain ⟨hmem, hle, hall⟩ := ih c
        refine ⟨?_, ?_, ?_⟩
        · rw [step]
          exact List.mem_cons_of_mem x hmem
        · rw [step]
          exact le_trans (le_of_lt hc) hle
        · intro y hy
          rw [step]
          rcases List.mem_cons.mp hy with h | h
          · subst h; exact hle
          · exact hall y h
      · have step : List.foldl (fun b c => if f b < f c then c else b) x (c :: t)
            = List.foldl (fun b c => if f b < f c then c else b) x t := by
          simp [List.foldl_cons, hc]
        obtain ⟨hmem, hle, hall⟩ := ih x
        refine ⟨?_, ?_, ?_⟩
        · rw [step]
          rcases List.mem_cons.mp hmem with h | h
          · rw [h]; exact List.mem_cons_self x _
          · exact List.mem_cons_of_mem x (List.mem_cons_of_mem c h)
        · rw [step]; exact hle
        · intro y hy
          rw [step]
          rcases List.mem_cons.mp hy with h | h
          · subst h; exact le_trans (le_of_not_lt hc) hle
          · exact hall y h

theorem argmaxFirst_spec (f : Nat → Rat) (l : List Nat) (hl : l ≠ []) :
    ∃ c, argmaxFirst f l = some c ∧ c ∈ l ∧ ∀ x ∈ l, f x ≤ f c := by
  cases l with
  | nil => exact absurd rfl hl
  | cons x xs =>
      obtain ⟨hmem, hle, hall⟩ := argmaxFirst_foldl_spec f xs x
      refine ⟨_, rfl, hmem, ?_⟩
      intro y hy
      rcases List.mem_cons.mp hy with h | h
      · subst h; exact hle
      · exact hall y h

theorem mem_idsBy {key : Entry → Nat} {entries : List Entry} {y d : Nat}
    (h : ∃ e ∈ entries, e.year = y ∧ key e = d) :
    d ∈ idsBy key entries y := by
  obtain ⟨e, he, hy, hk⟩ := h
  unfold idsBy
  rw [mem_dedupKeys, mem_sortAsc, List.mem_map]
  exact ⟨e, List.mem_filter.mpr ⟨he, by simp [hy]⟩, hk⟩

theorem idsBy_ne_nil {key : Entry → Nat} {entries : List Entry} {y : Nat}
    (h : entries.filter (fun e => decide (e.year = y)) ≠ []) :
    idsBy key entries y ≠ [] := by
  obtain ⟨e, he⟩ := List.exists_mem_of_ne_nil _ h
  have hy : e.year = y := by
    have := (List.mem_filter.mp he).2
    simpa using this
  have : key e ∈ idsBy key entries y :=
    mem_idsBy ⟨e, (List.mem_filter.mp he).1, hy, rfl⟩
  exact List.ne_nil_of_mem this

theorem championBy_attains_max (key : Entry → Nat) (entries : List Entry) (y : Nat)
    (h : entries.filter (fun e => decide (e.year = y)) ≠ []) :
    ∃ c, championBy key entries y = some c ∧
      ∀ d, (∃ e ∈ entries, e.year = y ∧ key e = d) →
        sumBy key entries y d ≤ sumBy key entries y c := by
  obtain ⟨c, hc, _, hmax⟩ :=
    argmaxFirst_spec (sumBy key entries y) (idsBy key entries y) (idsBy_ne_nil h)
  exact ⟨c, hc, fun d hd => hmax d (mem_idsBy hd)⟩

/-- C1: for every season with at least one entry, the champion computed by
the program (idxmax of the per-competitor season point sums, for drivers
and for constructors) attains the maximal cumulative points: every
competitor with an entry in that season has a season sum at most the
champion's. -/
theorem season_champion_attains_max_points (entries : List Entry) (y : Nat)
    (h : entries.filter (fun e => decide (e.year = y)) ≠ []) :
    (∃ c, championDrivers entries y = some c ∧
      ∀ d, (∃ e ∈ entries, e.year = y ∧ e.driverId = d) →
        sumBy (fun e => e.driverId) entries y d ≤ sumBy (fun e => e.driverId) entries y c) ∧
    (∃ c, championConstructors entries y = some c ∧
      ∀ d, (∃ e ∈ entries, e.year = y ∧ e.constructorId = d) →
        sumBy (fun e => e.constructorId) entries y d ≤ sumBy (fun e => e.constructorId) entries y c) :=
  ⟨championBy_attains_max (fun e => e.driverId) entries y h,
   championBy_attains_max (fun e => e.constructorId) entries y h⟩

/-- Season with one entry: driver 7 scored 10 points in race 1, round 1 of 1990. -/
def exSeason : List Entry :=
  [{ raceId := 1, driverId := 7, constructorId := 3, year := 1990, round := 1,
     points := 10, position := some 1, grid := 1 }]

theorem season_champion_attains_max_points_witness :
    exSeason.filter (fun e => decide (e.year = 1990)) ≠ [] ∧
    (∃ c, championDrivers exSeason 1990 = some c ∧
      ∀ d, (∃ e ∈ exSeason, e.year = 1990 ∧ e.driverId = d) →
        sumBy (fun e => e.driverId) exSeason 1990 d ≤ sumBy (fun e => e.driverId) exSeason 1990 c) :=
  ⟨by decide, (season_champion_attains_max_points exSeason 1990 (by decide)).1⟩

/-- Modelled from the spec: cumulative points of computeSeasonStandings.
For a (Season, Competitor, Round) triple this is the sum of that
competitor's points over all Entries in that Season with round at most the
given Round (spec section 3).  The running sum itself is not implemented
in src (the pages read the precomputed driver_standings table), so this
aggregator operation is modelled from the spec text. -/
def cumulativePoints (entries : List Entry) (y d r : Nat) : Rat :=
  ((entries.filter (fun e => decide (e.year = y ∧ e.driverId = d ∧ e.round ≤ r))).map
    (fun e => e.points)).sum

/-- Modelled from the spec: the final round of a season, the largest round
number among the season's entries. -/
def finalRound (entries : List Entry) (y : Nat) : Nat :=
  ((entries.filter (fun e => decide (e.year = y))).map (fun e => e.round)).foldl max 0

theorem init_le_foldl_max {α : Type} [LinearOrder α] (l : List α) (a : α) :
    a ≤ l.foldl max a := by
  induction l generalizing a with
  | nil => exact le_refl a
  | cons b t ih =>
      simp only [List.foldl_cons]
      exact le_trans (le_max_left a b) (ih (max a b))

theorem mem_le_foldl_max {α : Type} [LinearOrder α] {x : α} (l : List α) (a : α)
    (hx : x ∈ l) : x ≤ l.foldl max a := by
  induction l generalizing a with
  | nil => cases hx
  | cons b t ih =>
      simp only [List.foldl_cons]
      rcases List.mem_cons.mp hx with h | h
      · subst h
        exact le_trans (le_max_right a x) (init_le_foldl_max t (max a x))
      · exact ih (max a b) h

theorem round_le_finalRound {entries : List Entry} {y : Nat} {e : Entry}
    (he : e ∈ entries) (hy : e.year = y) : e.round ≤ finalRound entries y := by
  unfold finalRound
  exact mem_le_foldl_max _ _
    (List.mem_map.mpr ⟨e, List.mem_filter.mpr ⟨he, by simp [hy]⟩, rfl⟩)

/-- C3: for a season with at least one entry and any driver, the
cumulative points at the season's final round equal the naive full-season
sum of that driver's points used by the code (the groupby-year point sum
of streamlit_app lines 406-408 and 898-899). -/
theorem cumulative_at_final_round_eq_season_sum (entries : List Entry) (y d : Nat)
    (_h : entries.filter (fun e => decide (e.year = y)) ≠ []) :
    cumulativePoints entries y d (finalRound entries y)
      = sumBy (fun e => e.driverId) entries y d := by
  have hfil : entries.filter
        (fun e => decide (e.year = y ∧ e.driverId = d ∧ e.round ≤ finalRound entries y))
      = entries.filter (fun e => decide (e.year = y ∧ e.driverId = d)) := by
    apply List.filter_congr
    intro e he
    by_cases hy : e.year = y
    · simp [hy, round_le_finalRound he hy]
    · simp [hy]
  unfold cumulativePoints sumBy
  rw [hfil]

theorem cumulative_at_final_round_eq_season_sum_witness :
    exSeason.filter (fun e => decide (e.year = 1990)) ≠ [] ∧
    cumulativePoints exSeason 1990 7 (finalRound exSeason 1990)
      = sumBy (fun e => e.driverId) exSeason 1990 7 :=
  ⟨by decide, cumulative_at_final_round_eq_season_sum exSeason 1990 7 (by decide)⟩

/-- The tie scenario of spec section 8: season 2021, driver 1 scores 25
then 18, driver 2 scores 18 then 25 — a 43 : 43 tie at the final round. -/
def exTie : List Entry :=
  [{ raceId := 1, driverId := 1, constructorId := 1, year := 2021, round := 1,
     points := 25, position := some 1, grid := 1 },
   { raceId := 2, driverId := 1, constructorId := 1, year := 2021, round := 2,
     points := 18, position := some 2, grid := 2 },
   { raceId := 1, driverId := 2, constructorId := 2, year := 2021, round := 1,
     points := 18, position := some 2, grid := 2 },
   { raceId := 2, driverId := 2, constructorId := 2, year := 2021, round := 2,
     points := 25, position := some 1, grid := 1 }]

/-- C2: the champion computation does not flag ties.  On the spec's own
tie scenario both drivers finish the season on 43 points, yet
championDrivers silently returns the single first-row maximiser (driver 1,
the smaller id): its result type carries no tie information and the code
has no AmbiguousResult path. -/
theorem champion_tie_silently_resolved :
    championDrivers exTie 2021 = some 1 ∧
    sumBy (fun e => e.driverId) exTie 2021 1 = 43 ∧
    sumBy (fun e => e.driverId) exTie 2021 2 = 43 := by
  refine ⟨?_, ?_, ?_⟩ <;>
    · simp [championDrivers, championBy, idsBy, sortAsc, insertAsc, dedupKeys,
        argmaxFirst, sumBy, exTie]
      norm_num

/-- Pole count from race entries: grid position 1, as in
render_analise_pilotos line 413. -/
def polesFromGrid (entries : List Entry) (d : Nat) : Nat :=
  (entries.filter (fun e => decide (e.driverId = d))).countP (fun e => decide (e.grid = 1))

/-- Pole count from qualifying rows: qualifying position 1, as in
render_h2h line 807 and render_hall_da_fama line 918. -/
def polesFromQuali (qs : List QualEntry) (d : Nat) : Nat :=
  (qs.filter (fun q => decide (q.driverId = d))).countP (fun q => decide (q.position = some 1))

/-- A qualifying table whose positions are exactly the grid positions of
the given entries (the penalty-free situation). -/
def qualiFromEntries (entries : List Entry) : List QualEntry :=
  entries.map (fun e =>
    { raceId := e.raceId, driverId := e.driverId, constructorId := e.constructorId,
      position := some e.grid })

/-- C8 counterexample: a single race in which driver 1 starts from grid 1
but qualified second (the qualifying pole sitter took a penalty).  Over
this same one-race set the grid-based count is 1 while the
qualifying-based count is 0, so the two pole-count definitions are not
equivalent. -/
theorem pole_counts_differ :
    polesFromGrid
      [{ raceId := 1, driverId := 1, constructorId := 1, year := 2021, round := 1,
         points := 25, position := some 1, grid := 1 }] 1 = 1 ∧
    polesFromQuali
      [{ raceId := 1, driverId := 1, constructorId := 1, position := some 2 }] 1 = 0 := by
  decide

/-- C8 amended: the two pole counts are not equivalent in general (see the
counterexample), but they do agree whenever the qualifying positions
coincide with the grid positions: for a qualifying table derived from the
entries' grid positions the two counts are equal for every driver.  This
coincidence of positions is a sufficient condition only — equal totals can
also arise on data where individual positions differ. -/
theorem pole_counts_agree_when_grid_eq_quali (entries : List Entry) (d : Nat) :
    polesFromQuali (qualiFromEntries entries) d = polesFromGrid entries d := by
  unfold polesFromQuali polesFromGrid qualiFromEntries
  induction entries with
  | nil => rfl
  | cons e t ih =>
      by_cases hd : e.driverId = d
      · by_cases hg : e.grid = 1
        · simp [List.filter_cons, List.countP_cons, hd, hg, ih]
        · simp [List.filter_cons, List.countP_cons, hd, hg, ih]
      · simp [List.filter_cons, hd, ih]

/-- The entries of one driver: res_piloto in render_analise_pilotos. -/
def entriesOf (entries : List Entry) (d : Nat) : List Entry :=
  entries.filter (fun e => decide (e.driverId = d))

/-- total_corridas (streamlit_app line 410): the driver's number of
distinct races (raceId nunique). -/
def totalCorridas (entries : List Entry) (d : Nat) : Nat :=
  (dedupKeys ((entriesOf entries d).map (fun e => e.raceId))).length

/-- total_dnfs (streamlit_app line 515): the driver's entries with a null
finishing position. -/
def totalDnfs (entries : List Entry) (d : Nat) : Nat :=
  (entriesOf entries d).countP (fun e => e.position.isNone)

/-- confiabilidade (streamlit_app line 516): reliability percentage,
defined as 0 when the driver has no races; the subtraction is over the
rationals exactly as in Python. -/
def confiabilidade (entries : List Entry) (d : Nat) : Rat :=
  if 0 < totalCorridas entries d then
    ((totalCorridas entries d : Rat) - (totalDnfs entries d : Rat))
      / (totalCorridas entries d : Rat) * 100
  else 0

/-- Modelled from the spec: computeCareerTotals winRate — wins (finishing
position 1, streamlit_app line 411 shows the count) divided by total
filtered entries, defined as 0 when there are no entries.  src renders
only the counts, so the ratio itself is modelled from the spec text. -/
def winRate (entries : List Entry) (d : Nat) : Rat :=
  if (entriesOf entries d).length = 0 then 0
  else ((entriesOf entries d).countP (fun e => decide (e.position = some 1)) : Rat)
        / ((entriesOf entries d).length : Rat)

/-- Modelled from the spec: computeCareerTotals podium rate — finishing
position 1, 2 or 3 (streamlit_app line 412 shows the count) over total
entries, defined as 0 when there are no entries. -/
def podiumRate (entries : List Entry) (d : Nat) : Rat :=
  if (entriesOf entries d).length = 0 then 0
  else ((entriesOf entries d).countP
          (fun e => decide (e.position = some 1 ∨ e.position = some 2 ∨ e.position = some 3)) : Rat)
        / ((entriesOf entries d).length : Rat)

theorem dedupKeys_eq_self {l : List Nat} (h : l.Pairwise (fun a b => a ≠ b)) :
    dedupKeys l = l := by
  induction l with
  | nil => rfl
  | cons a t ih =>
      obtain ⟨ha, ht⟩ := List.pairwise_cons.mp h
      simp only [dedupKeys, ih ht]
      rw [List.filter_eq_self.mpr]
      intro b hb
      simpa using (ha b hb).symm

theorem totalDnfs_le_totalCorridas {entries : List Entry} {d : Nat}
    (hinv : (entriesOf entries d).Pairwise (fun a b => a.raceId ≠ b.raceId)) :
    totalDnfs entries d ≤ totalCorridas entries d := by
  have hnd : ((entriesOf entries d).map (fun e => e.raceId)).Pairwise (fun a b => a ≠ b) :=
    List.pairwise_map.mpr hinv
  unfold totalCorridas totalDnfs
  rw [dedupKeys_eq_self hnd, List.length_map]
  exact List.countP_le_length _

/-- C4: derived rates are bounded and total.  The win and podium rates lie
in [0, 1], the reliability percentage (confiabilidade, lines 515-516) lies
in [0, 100], and all three are 0 for a driver with no entries, so no
division by zero can occur.  The reliability bound needs the data-model
invariant of at most one entry per (race, driver) (spec section 3),
because the pandas denominator is the distinct-race count while the DNFs
are counted over rows. -/
theorem career_rates_bounded (entries : List Entry) (d : Nat)
    (hinv : (entriesOf entries d).Pairwise (fun a b => a.raceId ≠ b.raceId)) :
    (0 ≤ winRate entries d ∧ winRate entries d ≤ 1) ∧
    (0 ≤ podiumRate entries d ∧ podiumRate entries d ≤ 1) ∧
    (0 ≤ confiabilidade entries d ∧ confiabilidade entries d ≤ 100) ∧
    (entriesOf entries d = [] →
      winRate entries d = 0 ∧ podiumRate entries d = 0 ∧ confiabilidade entries d = 0) := by
  have hwin : 0 ≤ winRate entries d ∧ winRate entries d ≤ 1 := by
    unfold winRate
    by_cases hz : (entriesOf entries d).length = 0
    · simp [hz]
    · rw [if_neg hz]
      have hpos : 0 < ((entriesOf entries d).length : Rat) := by
        exact_mod_cast Nat.pos_of_ne_zero hz
      constructor
      · apply div_nonneg _ (le_of_lt hpos)
        exact_mod_cast Nat.zero_le _
      · rw [div_le_one hpos]
        exact_mod_cast List.countP_le_length _
  have hpod : 0 ≤ podiumRate entries d ∧ podiumRate entries d ≤ 1 := by
    unfold podiumRate
    by_cases hz : (entriesOf entries d).length = 0
    · simp [hz]
    · rw [if_neg hz]
      have hpos : 0 < ((entriesOf entries d).length : Rat) := by
        exact_mod_cast Nat.pos_of_ne_zero hz
      constructor
      · apply div_nonneg _ (le_of_lt hpos)
        exact_mod_cast Nat.zero_le _
      · rw [div_le_one hpos]
        exact_mod_cast List.countP_le_length _
  have hconf : 0 ≤ confiabilidade entries d ∧ confiabilidade entries d ≤ 100 := by
    unfold confiabilidade
    by_cases hz : 0 < totalCorridas entries d
    · rw [if_pos hz]
      have hTpos : 0 < (totalCorridas entries d : Rat) := by exact_mod_cast hz
      have hDle : (totalDnfs entries d : Rat) ≤ (totalCorridas entries d : Rat) := by
        exact_mod_cast totalDnfs_le_totalCorridas hinv
      constructor
      · apply mul_nonneg
        · apply div_nonneg (by linarith) (le_of_lt hTpos)
        · norm_num
      · have h1 : ((totalCorridas entries d : Rat) - (totalDnfs entries d : Rat))
            / (totalCorridas entries d : Rat) ≤ 1 := by
          rw [div_le_one hTpos]
          have : (0 : Rat) ≤ (totalDnfs entries d : Rat) := by exact_mod_cast Nat.zero_le _
          linarith
        calc ((totalCorridas entries d : Rat) - (totalDnfs entries d : Rat))
              / (totalCorridas entries d : Rat) * 100 ≤ 1 * 100 :=
              mul_le_mul_of_nonneg_right h1 (by norm_num)
          _ = 100 := by norm_num
    · rw [if_neg hz]
      norm_num
  refine ⟨hwin, hpod, hconf, ?_⟩
  intro hnil
  refine ⟨?_, ?_, ?_⟩
  · simp [winRate, hnil]
  · simp [podiumRate, hnil]
  · simp [confiabilidade, totalCorridas, hnil, dedupKeys]

theorem career_rates_bounded_witness :
    (entriesOf exSeason 7).Pairwise (fun a b => a.raceId ≠ b.raceId) ∧
    ((0 ≤ winRate exSeason 7 ∧ winRate exSeason 7 ≤ 1) ∧
     (0 ≤ podiumRate exSeason 7 ∧ podiumRate exSeason 7 ≤ 1) ∧
     (0 ≤ confiabilidade exSeason 7 ∧ confiabilidade exSeason 7 ≤ 100) ∧
     (entriesOf exSeason 7 = [] →
       winRate exSeason 7 = 0 ∧ podiumRate exSeason 7 = 0 ∧ confiabilidade exSeason 7 = 0)) :=
  ⟨by simp [entriesOf, exSeason],
   career_rates_bounded exSeason 7 (by simp [entriesOf, exSeason])⟩

/-- The qualifying rows of one driver (quali1 and quali2 in render_h2h). -/
def qualisOf (qs : List QualEntry) (d : Nat) : List QualEntry :=
  qs.filter (fun q => decide (q.driverId = d))

/-- Inner join of two row lists on race id, mirroring
DataFrame.merge(on=raceId): one output pair for every matching pair of
rows, left rows outermost. -/
def joinOn {α : Type} (race : α → Nat) : List α → List α → List (α × α)
  | [], _ => []
  | x :: xs, B =>
      (B.filterMap (fun y => if race x = race y then some (x, y) else none)) ++ joinOn race xs B

/-- res_comum (render_h2h line 812): the two drivers' entries joined on
raceId. -/
def resComum (entries : List Entry) (a b : Nat) : List (Entry × Entry) :=
  joinOn (fun e => e.raceId) (entriesOf entries a) (entriesOf entries b)

/-- res_comum_finalizado (line 813): joined rows in which both drivers
have a finishing position. -/
def resComumFinalizado (entries : List Entry) (a b : Nat) : List (Entry × Entry) :=
  (resComum entries a b).filter (fun p => p.1.position.isSome && p.2.position.isSome)

/-- Strict comparison of nullable positions; any comparison involving a
null is false, matching pandas NaN comparison semantics. -/
def ltOptNat : Option Nat → Option Nat → Bool
  | some u, some v => decide (u < v)
  | _, _ => false

/-- vantagem_corrida_p1 (line 814): races in which driver a finished
ahead of driver b. -/
def aAheadCount (entries : List Entry) (a b : Nat) : Nat :=
  (resComumFinalizado entries a b).countP (fun p => ltOptNat p.1.position p.2.position)

/-- vantagem_corrida_p2 (line 815). -/
def bAheadCount (entries : List Entry) (a b : Nat) : Nat :=
  (resComumFinalizado entries a b).countP (fun p => ltOptNat p.2.position p.1.position)

/-- Races both drivers finished, len(res_comum_finalizado) (line 862). -/
def racesTogether (entries : List Entry) (a b : Nat) : Nat :=
  (resComumFinalizado entries a b).length

/-- quali_comum (line 867): the two drivers' qualifying rows joined on
raceId; the code applies no dropna here. -/
def qualiComum (qs : List QualEntry) (a b : Nat) : List (QualEntry × QualEntry) :=
  joinOn (fun q => q.raceId) (qualisOf qs a) (qualisOf qs b)

/-- vantagem_quali_p1 (line 868). -/
def qualiAAhead (qs : List QualEntry) (a b : Nat) : Nat :=
  (qualiComum qs a b).countP (fun p => ltOptNat p.1.position p.2.position)

/-- vantagem_quali_p2 (line 869). -/
def qualiBAhead (qs : List QualEntry) (a b : Nat) : Nat :=
  (qualiComum qs a b).countP (fun p => ltOptNat p.2.position p.1.position)

/-- Qualifying sessions together, len(quali_comum) (line 870). -/
def qualiSessionsTogether (qs : List QualEntry) (a b : Nat) : Nat :=
  (qualiComum qs a b).length

theorem countP_eq_sum_map {α : Type} (p : α → Bool) (l : List α) :
    l.countP p = (l.map (fun a => if p a then 1 else 0)).sum := by
  induction l with
  | nil => rfl
  | cons a t ih =>
      rw [List.countP_cons, List.map_cons, List.sum_cons, ih]
      exact Nat.add_comm _ _

theorem countP_filter_eq {α : Type} (p q : α → Bool) (l : List α) :
    (l.filter q).countP p = l.countP (fun a => p a && q a) := by
  induction l with
  | nil => rfl
  | cons a t ih =>
      by_cases hq : q a
      · by_cases hp : p a
        · simp [List.filter_cons, hq, List.countP_cons, hp, ih]
        · simp [List.filter_cons, hq, List.countP_cons, hp, ih]
      · simp [List.filter_cons, hq, List.countP_cons, ih]

theorem length_filter_countP {α : Type} (q : α → Bool) (l : List α) :
    (l.filter q).length = l.countP q := by
  induction l with
  | nil => rfl
  | cons a t ih =>
      by_cases hq : q a
      · simp [List.filter_cons, hq, List.countP_cons, ih]
      · simp [List.filter_cons, hq, List.countP_cons, ih]

theorem length_eq_countP_true {α : Type} (l : List α) :
    l.length = l.countP (fun _ => true) := by
  induction l with
  | nil => rfl
  | cons a t ih =>
      rw [List.length_cons, List.countP_cons, ih]
      simp

theorem sum_map_add {α : Type} (f g : α → Nat) (l : List α) :
    (l.map (fun a => f a + g a)).sum = (l.map f).sum + (l.map g).sum := by
  induction l with
  | nil => rfl
  | cons a t ih =>
      simp only [List.map_cons, List.sum_cons, ih]
      omega

theorem sum_map_zero {α : Type} (l : List α) :
    (l.map (fun _ => (0 : Nat))).sum = 0 := by
  induction l with
  | nil => rfl
  | cons a t ih => simp [ih]

theorem sum_map_comm {α β : Type} (A : List α) (B : List β) (f : α → β → Nat) :
    (A.map (fun x => (B.map (fun y => f x y)).sum)).sum
      = (B.map (fun y => (A.map (fun x => f x y)).sum)).sum := by
  induction A with
  | nil => simp [sum_map_zero]
  | cons x t ih =>
      simp only [List.map_cons, List.sum_cons]
      rw [ih, sum_map_add]

theorem countP_filterMap_sum {α : Type} (x : α) (race : α → Nat) (P : α × α → Bool)
    (B : List α) :
    (B.filterMap (fun y => if race x = race y then some (x, y) else none)).countP P
      = (B.map (fun y => if decide (race x = race y) && P (x, y) then 1 else 0)).sum := by
  induction B with
  | nil => rfl
  | cons y t ih =>
      by_cases h : race x = race y
      · have hfy : (if race x = race y then some (x, y) else none) = some (x, y) := if_pos h
        simp only [List.filterMap_cons, hfy]
        rw [List.countP_cons, List.map_cons, List.sum_cons, ih]
        have hind : (decide (race x = race y) && P (x, y)) = P (x, y) := by
          rw [decide_eq_true h, Bool.true_and]
        rw [hind]
        exact Nat.add_comm _ _
      · have hfy : (if race x = race y then some (x, y) else none) = none := if_neg h
        simp only [List.filterMap_cons, hfy]
        rw [List.map_cons, List.sum_cons, ih]
        have hind : (decide (race x = race y) && P (x, y)) = false := by
          rw [decide_eq_false h, Bool.false_and]
        rw [hind]
        simp

theorem countP_joinOn_sum {α : Type} (race : α → Nat) (P : α × α → Bool) (A B : List α) :
    (joinOn race A B).countP P
      = (A.map (fun x =>
          (B.map (fun y => if decide (race x = race y) && P (x, y) then 1 else 0)).sum)).sum := by
  induction A with
  | nil => rfl
  | cons x t ih =>
      simp only [joinOn, List.countP_append, countP_filterMap_sum, ih, List.map_cons,
        List.sum_cons]

theorem joinOn_countP_swap {α : Type} (race : α → Nat) (P : α × α → Bool) (A B : List α) :
    (joinOn race A B).countP P = (joinOn race B A).countP (fun p => P (p.2, p.1)) := by
  rw [countP_joinOn_sum, countP_joinOn_sum, sum_map_comm]
  apply congrArg List.sum
  apply congrArg (fun f => List.map f B)
  funext y
  apply congrArg List.sum
  apply congrArg (fun f => List.map f A)
  funext x
  have h : decide (race x = race y) = decide (race y = race x) :=
    decide_eq_decide.mpr eq_comm
  show (if decide (race x = race y) && P (x, y) then 1 else 0)
      = (if decide (race y = race x) && P (x, y) then 1 else 0)
  rw [h]

/-- C5: the head-to-head comparison is antisymmetric and symmetric in its
two arguments.  For distinct drivers a and b, the count of races a
finished ahead computed for (a, b) equals the count of races b finished
ahead computed for (b, a); the races-together count (races both finished)
is symmetric; and the same holds for the qualifying-session counts. -/
theorem head_to_head_antisymmetric (entries : List Entry) (qs : List QualEntry) (a b : Nat)
    (_hab : a ≠ b) :
    aAheadCount entries a b = bAheadCount entries b a ∧
    racesTogether entries a b = racesTogether entries b a ∧
    qualiAAhead qs a b = qualiBAhead qs b a ∧
    qualiSessionsTogether qs a b = qualiSessionsTogether qs b a := by
  refine ⟨?_, ?_, ?_, ?_⟩
  · unfold aAheadCount bAheadCount resComumFinalizado resComum
    rw [countP_filter_eq, countP_filter_eq, joinOn_countP_swap]
    congr 1
    funext p
    simp [Bool.and_comm]
  · unfold racesTogether resComumFinalizado resComum
    rw [length_filter_countP, length_filter_countP, joinOn_countP_swap]
    congr 1
    funext p
    simp [Bool.and_comm]
  · unfold qualiAAhead qualiBAhead qualiComum
    rw [joinOn_countP_swap]
  · unfold qualiSessionsTogether qualiComum
    rw [length_eq_countP_true, length_eq_countP_true, joinOn_countP_swap]

theorem head_to_head_antisymmetric_witness :
    (1 : Nat) ≠ 2 ∧
    (aAheadCount exTie 1 2 = bAheadCount exTie 2 1 ∧
     racesTogether exTie 1 2 = racesTogether exTie 2 1 ∧
     qualiAAhead [] 1 2 = qualiBAhead [] 2 1 ∧
     qualiSessionsTogether [] 1 2 = qualiSessionsTogether [] 2 1) :=
  ⟨by decide, head_to_head_antisymmetric exTie [] 1 2 (by decide)⟩

/-- One row of tbl_pilotos as handled by the CRUD page
(render_pagina_gerenciamento). -/
structure Driver where
  idPiloto : Int
  refPiloto : String
  numero : Option Nat
  codigo : String
  nome : String
  sobrenome : String
  dataNascimento : String
  nacionalidade : String
  deriving Repr, DecidableEq

/-- The dashboard state relevant to the CRUD claims: the drivers table of
the Data Store, plus whether the dataset cached by
carregar_todos_os_dados (st.cache_data) is still the one read before the
write. -/
structure AppState where
  pilotos : List Driver
  cacheValid : Bool
  deriving Repr, DecidableEq

/-- The three CRUD statements the management page issues. -/
inductive SqlCmd where
  | insertPiloto (d : Driver)
  | updatePiloto (id : Int) (codigo : String) (numero : Option Nat)
  | deletePiloto (id : Int)
  deriving Repr, DecidableEq

/-- Data Store semantics of one statement: a plain INSERT fails on a
duplicate primary key; UPDATE and DELETE succeed. -/
def aplicarCmd : SqlCmd → List Driver → Except String (List Driver)
  | .insertPiloto d, tbl =>
      if tbl.any (fun r => decide (r.idPiloto = d.idPiloto)) then .error "chave duplicada"
      else .ok (tbl ++ [d])
  | .updatePiloto i c n, tbl =>
      .ok (tbl.map (fun r => if r.idPiloto = i then { r with codigo := c, numero := n } else r))
  | .deletePiloto i, tbl =>
      .ok (tbl.filter (fun r => decide (r.idPiloto ≠ i)))

/-- executar_comando_sql (streamlit_app lines 30-41): execute the
statement, commit and clear the cached dataset on success; roll back and
keep the state unchanged on failure.  The update and delete tabs go
through this function. -/
def executarComandoSql (s : AppState) (cmd : SqlCmd) : Bool × AppState :=
  match aplicarCmd cmd s.pilotos with
  | .ok tbl => (true, { pilotos := tbl, cacheValid := false })
  | .error _ => (false, s)

/-- SELECT MAX(id_piloto) FROM tbl_pilotos (line 1141). -/
def maxIdPiloto (tbl : List Driver) : Option Int :=
  match tbl with
  | [] => none
  | d :: rest => some ((rest.map (fun r => r.idPiloto)).foldl max d.idPiloto)

/-- novo_id = (max_id or 0) + 1 (line 1143), with the Python falsiness of
both None and 0 falling back to 0. -/
def novoIdPiloto (tbl : List Driver) : Int :=
  (match maxIdPiloto tbl with
   | none => 0
   | some m => if m = 0 then 0 else m) + 1

/-- The create tab (lines 1137-1153): compute the new id, INSERT and
commit with a raw cursor — unlike executar_comando_sql this path never
clears the cached dataset; on failure it rolls back.  codigo is
upper-cased as in the code. -/
def criarPiloto (s : AppState) (refP codigo nome sobrenome nasc nac : String)
    (numero : Option Nat) : Bool × AppState :=
  match aplicarCmd (.insertPiloto
      { idPiloto := novoIdPiloto s.pilotos, refPiloto := refP, numero := numero,
        codigo := codigo.toUpper, nome := nome, sobrenome := sobrenome,
        dataNascimento := nasc, nacionalidade := nac }) s.pilotos with
  | .ok tbl => (true, { s with pilotos := tbl })
  | .error _ => (false, s)

/-- C6: the cached dataset survives a successful create.  Starting from a
state with a live cache, the create tab's INSERT succeeds and commits a
new row, yet cacheValid is still true afterwards, because the create
handler (lines 1137-1153) uses a raw cursor and never calls
st.cache_data.clear() — unlike the update path through
executar_comando_sql, which does clear it (last conjunct).  So a state in
which the pre-write cache is still live is reachable by a successful
write, contrary to the claim. -/
theorem create_driver_leaves_cache_live :
    (criarPiloto { pilotos := [], cacheValid := true } "ham" "HAM" "Lewis" "Hamilton"
        "1985-01-07" "British" (some 44)).fst = true ∧
    (criarPiloto { pilotos := [], cacheValid := true } "ham" "HAM" "Lewis" "Hamilton"
        "1985-01-07" "British" (some 44)).snd.cacheValid = true ∧
    (criarPiloto { pilotos := [], cacheValid := true } "ham" "HAM" "Lewis" "Hamilton"
        "1985-01-07" "British" (some 44)).snd.pilotos ≠ [] ∧
    (executarComandoSql { pilotos := [], cacheValid := true }
        (.updatePiloto 1 "HAM" (some 44))).snd.cacheValid = false := by
  refine ⟨rfl, rfl, ?_, rfl⟩
  decide

/-- One row processed by importar_dados: target table, primary key,
foreign-key references and payload fields. -/
structure LinhaImport where
  tabela : String
  chave : Nat
  referencias : List (String × Nat)
  dados : List String
  deriving Repr, DecidableEq

/-- INSERT ... ON CONFLICT DO NOTHING as issued by importador.py: fails
when a referenced row is missing (foreign-key violation), skips an
existing primary key, appends otherwise. -/
def inserirLinha (db : List LinhaImport) (r : LinhaImport) :
    Except String (List LinhaImport) :=
  if r.referencias.all (fun p => db.any (fun q => decide (q.tabela = p.1 ∧ q.chave = p.2))) then
    if db.any (fun q => decide (q.tabela = r.tabela ∧ q.chave = r.chave)) then .ok db
    else .ok (db ++ [r])
  else .error "violacao de chave estrangeira"

/-- importar_dados (importador.py lines 18-91): all inserts run inside one
transaction, conn.commit() only after the whole loop, conn.rollback() in
the exception handler, so the committed store is either the fully imported
one or the original one. -/
def importarDados (db : List LinhaImport) (linhas : List LinhaImport) :
    Bool × List LinhaImport :=
  match linhas.foldlM (fun acc r => inserirLinha acc r) db with
  | .ok novo => (true, novo)
  | .error _ => (false, db)

/-- C7: write paths are atomic.  executar_comando_sql (lines 33-41)
commits exactly when the statement succeeds and on failure rolls back
leaving the state unchanged; importar_dados (lines 86-91) commits the
imported rows only if every row processed without error, and any error
leaves the Data Store exactly as it was — no partial write survives. -/
theorem write_paths_atomic (s : AppState) (cmd : SqlCmd)
    (db linhas : List LinhaImport) :
    ((executarComandoSql s cmd).fst = false → (executarComandoSql s cmd).snd = s) ∧
    ((executarComandoSql s cmd).fst = true →
      ∃ tbl, aplicarCmd cmd s.pilotos = .ok tbl ∧ (executarComandoSql s cmd).snd.pilotos = tbl) ∧
    ((importarDados db linhas).fst = false → (importarDados db linhas).snd = db) ∧
    ((importarDados db linhas).fst = true →
      linhas.foldlM (fun acc r => inserirLinha acc r) db = .ok (importarDados db linhas).snd) := by
  refine ⟨?_, ?_, ?_, ?_⟩
  · unfold executarComandoSql
    cases hc : aplicarCmd cmd s.pilotos with
    | ok tbl => simp
    | error e => simp
  · unfold executarComandoSql
    cases hc : aplicarCmd cmd s.pilotos with
    | ok tbl => exact fun _ => ⟨tbl, rfl, rfl⟩
    | error e => simp
  · unfold importarDados
    cases hc : linhas.foldlM (fun acc r => inserirLinha acc r) db with
    | ok novo => simp
    | error e => simp
  · unfold importarDados
    cases hc : linhas.foldlM (fun acc r => inserirLinha acc r) db with
    | ok novo => simp
    | error e => simp

/-- A one-row drivers table whose only id is 7, used as a concrete state
on which a duplicate INSERT fails. -/
def exPiloto7 : Driver :=
  { idPiloto := 7, refPiloto := "seven", numero := none, codigo := "SVN",
    nome := "Sete", sobrenome := "Silva", dataNascimento := "1990-01-01",
    nacionalidade := "Brazilian" }

/-- A results row referencing a race that is absent from the store, so
importing it fails with a foreign-key violation. -/
def exLinhaFk : LinhaImport :=
  { tabela := "tbl_resultados", chave := 1, referencias := [("tbl_corridas", 5)], dados := [] }

theorem write_paths_atomic_witness :
    (executarComandoSql { pilotos := [exPiloto7], cacheValid := true }
        (.insertPiloto exPiloto7)).snd = { pilotos := [exPiloto7], cacheValid := true } ∧
    (importarDados [] [exLinhaFk]).snd = [] :=
  ⟨(write_paths_atomic { pilotos := [exPiloto7], cacheValid := true } (.insertPiloto exPiloto7)
      [] [exLinhaFk]).1 (by decide),
   (write_paths_atomic { pilotos := [exPiloto7], cacheValid := true } (.insertPiloto exPiloto7)
      [] [exLinhaFk]).2.2.1 (by decide)⟩

/-- One row of the drivers DataFrame as used by the head-to-head page: the
id and the derived driver_name column. -/
structure DriverRec where
  driverId : Nat
  driverName : String
  deriving Repr, DecidableEq

/-- driverId lookup by driver_name with iloc[0]: the first matching row;
none when the name is absent (where the code would raise IndexError). -/
def lookupDriverId (drivers : List DriverRec) (nome : String) : Option Nat :=
  match drivers.filter (fun d => decide (d.driverName = nome)) with
  | [] => none
  | d :: _ => some d.driverId

/-- Outcome of the head-to-head page. -/
inductive H2HOutcome where
  | semSelecao
  | mesmoPiloto
  | falhaConsulta
  | comparacao (juntos aFrente bFrente qualiJuntos qualiAFrente qualiBFrente : Nat)
  deriving Repr, DecidableEq

/-- render_h2h control flow (streamlit_app lines 784-815 and 860-873):
a missing or falsy selection shows an informational message and returns;
equal selections are rejected with a visible warning before any lookup or
computation; otherwise both ids are looked up and the comparison counts
are computed. -/
def renderH2H (drivers : List DriverRec) (entries : List Entry) (qs : List QualEntry)
    (sel1 sel2 : Option String) : H2HOutcome :=
  match sel1, sel2 with
  | some n1, some n2 =>
      if n1 = "" ∨ n2 = "" then .semSelecao
      else if n1 = n2 then .mesmoPiloto
      else
        match lookupDriverId drivers n1, lookupDriverId drivers n2 with
        | some i1, some i2 =>
            .comparacao (racesTogether entries i1 i2) (aAheadCount entries i1 i2)
              (bAheadCount entries i1 i2) (qualiSessionsTogether qs i1 i2)
              (qualiAAhead qs i1 i2) (qualiBAhead qs i1 i2)
        | _, _ => .falhaConsulta
  | _, _ => .semSelecao

/-- C9: passing the same competitor twice is rejected and reported — the
outcome is the dedicated warning state, distinct from the silent
no-selection state, and no comparison is computed — while any two
distinct selected names whose id lookups succeed produce the comparison
result. -/
theorem h2h_equal_rejected_distinct_proceeds (drivers : List DriverRec)
    (entries : List Entry) (qs : List QualEntry) (n1 n2 : String) (i1 i2 : Nat)
    (h1 : n1 ≠ "") (h2 : n2 ≠ "")
    (hl1 : lookupDriverId drivers n1 = some i1)
    (hl2 : lookupDriverId drivers n2 = some i2) :
    (renderH2H drivers entries qs (some n1) (some n1) = .mesmoPiloto ∧
      H2HOutcome.mesmoPiloto ≠ H2HOutcome.semSelecao) ∧
    (n1 ≠ n2 → renderH2H drivers entries qs (some n1) (some n2)
        = .comparacao (racesTogether entries i1 i2) (aAheadCount entries i1 i2)
            (bAheadCount entries i1 i2) (qualiSessionsTogether qs i1 i2)
            (qualiAAhead qs i1 i2) (qualiBAhead qs i1 i2)) := by
  constructor
  · constructor
    · simp only [renderH2H]
      have hor : ¬(n1 = "" ∨ n1 = "") := by simp [h1]
      rw [if_neg hor]
      simp
    · intro h
      cases h
  · intro hne
    simp only [renderH2H]
    have hor : ¬(n1 = "" ∨ n2 = "") := by simp [h1, h2]
    rw [if_neg hor, if_neg hne, hl1, hl2]

/-- A two-row drivers table for the head-to-head witness. -/
def exDrivers : List DriverRec :=
  [{ driverId := 1, driverName := "A B" }, { driverId := 2, driverName := "C D" }]

theorem h2h_equal_rejected_distinct_proceeds_witness :
    (renderH2H exDrivers [] [] (some "A B") (some "A B") = .mesmoPiloto ∧
      H2HOutcome.mesmoPiloto ≠ H2HOutcome.semSelecao) ∧
    renderH2H exDrivers [] [] (some "A B") (some "C D")
      = H2HOutcome.comparacao (racesTogether [] 1 2) (aAheadCount [] 1 2)
          (bAheadCount [] 1 2) (qualiSessionsTogether [] 1 2)
          (qualiAAhead [] 1 2) (qualiBAhead [] 1 2) :=
  ⟨(h2h_equal_rejected_distinct_proceeds exDrivers [] [] "A B" "C D" 1 2
      (by decide) (by decide) (by decide) (by decide)).1,
   (h2h_equal_rejected_distinct_proceeds exDrivers [] [] "A B" "C D" 1 2
      (by decide) (by decide) (by decide) (by decide)).2 (by decide)⟩

theorem mem_le_maxIdPiloto {tbl : List Driver} {d : Driver} (hd : d ∈ tbl) :
    ∃ m, maxIdPiloto tbl = some m ∧ d.idPiloto ≤ m := by
  cases tbl with
  | nil => cases hd
  | cons x rest =>
      refine ⟨_, rfl, ?_⟩
      rcases List.mem_cons.mp hd with h | h
      · subst h
        exact init_le_foldl_max _ _
      · exact mem_le_foldl_max _ _ (List.mem_map.mpr ⟨d, h, rfl⟩)

theorem novoIdPiloto_eq_max_succ {tbl : List Driver} {m : Int}
    (h : maxIdPiloto tbl = some m) : novoIdPiloto tbl = m + 1 := by
  unfold novoIdPiloto
  rw [h]
  by_cases hm : m = 0
  · simp [hm]
  · simp [hm]

/-- C10: the created driver id never collides.  novo_id (lines 1140-1148)
is 1 for an empty drivers table; for a non-empty table it equals 1 plus
the maximum existing id_piloto, hence is strictly greater than — and in
particular distinct from — every existing id.  The Python falsiness of
(max_id or 0) only re-maps a maximum of 0 to 0, which still yields
max + 1. -/
theorem novo_id_exceeds_existing (tbl : List Driver) (h : tbl ≠ []) :
    novoIdPiloto [] = 1 ∧
    (∃ m, maxIdPiloto tbl = some m ∧ novoIdPiloto tbl = m + 1) ∧
    (∀ d ∈ tbl, d.idPiloto < novoIdPiloto tbl ∧ d.idPiloto ≠ novoIdPiloto tbl) := by
  refine ⟨rfl, ?_, ?_⟩
  · cases tbl with
    | nil => exact absurd rfl h
    | cons x rest => exact ⟨_, rfl, novoIdPiloto_eq_max_succ rfl⟩
  · intro d hd
    obtain ⟨m, hmax, hle⟩ := mem_le_maxIdPiloto hd
    rw [novoIdPiloto_eq_max_succ hmax]
    omega

theorem novo_id_exceeds_existing_witness :
    [exPiloto7] ≠ ([] : List Driver) ∧
    (novoIdPiloto [] = 1 ∧
     (∃ m, maxIdPiloto [exPiloto7] = some m ∧ novoIdPiloto [exPiloto7] = m + 1) ∧
     (∀ d ∈ [exPiloto7],
        d.idPiloto < novoIdPiloto [exPiloto7] ∧ d.idPiloto ≠ novoIdPiloto [exPiloto7])) :=
  ⟨by decide, novo_id_exceeds_existing [exPiloto7] (by decide)⟩
